import Mathlib

/-!
The package rehttp: a thin GET/POST wrapper over go-retryablehttp

Shallow embedding of `rehttp.go` and `types.go`.

* Go `int64` / `int` values are integers (`Int`); the one place where the code
  does arithmetic on them, `time.Duration(timeout) * time.Second`, wraps
  modulo `2^64` as Go's signed 64-bit multiplication does (`wrapInt64`).
* Go `error` values are `Error`; a nil error is `none`.
* Pointers that may be nil (`HTTP.Client`) are `Option`; dereferencing a nil
  pointer is a run-time panic, modelled by the result `none`.
* The Go standard library and go-retryablehttp are not part of the repository.
  Their pure, documented behaviour that the wrapper relies on
  (`http.Header.Set`, `io.LimitReader`, `io.ReadAll`, `retryablehttp.NewClient`)
  is modelled below; what depends on the outside world (`url.Parse`,
  `retryablehttp.NewRequest`, `Client.Do`, the clock) is a field of `Env`.
  The retry loop inside `Client.Do` is modelled too (`Client.Do`), and
  `Env.onNetwork` is a world whose Engine is that loop on a network given
  attempt by attempt.
-/

namespace rehttp

/-! ## Go runtime values -/

/-- Go `error` values. `io.EOF` and `io.ErrUnexpectedEOF` are the two sentinel
values the wrapper compares against; every other error is `other`. -/
inductive Error where
  | EOF
  | ErrUnexpectedEOF
  | other (msg : String)
  deriving DecidableEq, Repr

/-- A Go `[]byte` / the bytes of a Go `string`. -/
abbrev Bytes := List UInt8

/-- Go's `int64` multiplication and conversion keep the low 64 bits, read as a
two's-complement number. -/
def wrapInt64 (x : Int) : Int := (x + 2 ^ 63) % 2 ^ 64 - 2 ^ 63

/-- The constant `time.Second`: a `time.Duration` counts nanoseconds in an `int64`. -/
def Second : Int := 1000000000

/-! ## The Engine: `retryablehttp.Client` -/

/-- The logger slot of `retryablehttp.Client`; `NewClient` installs one that
writes to standard error. -/
inductive Logger where
  | stderr
  deriving DecidableEq, Repr

/-- The `http.Client` owned by the Engine; `Timeout` is a `time.Duration`
(nanoseconds, `int64`). -/
structure HTTPClient where
  Timeout : Int
  deriving DecidableEq, Repr

/-- The configuration fields of `retryablehttp.Client`. -/
structure Client where
  HTTPClient : HTTPClient
  Logger : Option Logger
  RetryWaitMin : Int
  RetryWaitMax : Int
  RetryMax : Int
  deriving DecidableEq, Repr

/-- The function `retryablehttp.NewClient()`: a fresh Engine with the defaults of
the library (no client timeout, a logger to standard error, waits of 1 s to
30 s, 4 retries). -/
def NewClient : Client :=
  { HTTPClient := { Timeout := 0 }
    Logger := some Logger.stderr
    RetryWaitMin := 1 * Second
    RetryWaitMax := 30 * Second
    RetryMax := 4 }

/-- The function `initHTTP(timeout int64, retryMax int)`. -/
def initHTTP (timeout : Int) (retryMax : Int) : Client :=
  let retryClient := NewClient
  let retryClient := { retryClient with Logger := none }
  let retryClient := { retryClient with RetryMax := retryMax }
  let retryClient :=
    { retryClient with HTTPClient := { retryClient.HTTPClient with Timeout := wrapInt64 (timeout * Second) } }
  retryClient

/-! ## `type HTTP struct` and its constructors -/

/-- The struct `HTTP`. `Client` is a pointer, nil (`none`) when unset. A field
that a composite literal leaves out has Go's zero value, its default here. -/
structure HTTP where
  Client : Option Client := none
  ResponseLimit : Int := 0
  Timeout : Int := 0
  RetryMax : Int := 0
  deriving DecidableEq, Repr

/-- The function `httpDefault()`: the composite literal sets `Client` and
`ResponseLimit` only. -/
def httpDefault : HTTP :=
  { Client := some (initHTTP 10 3)
    ResponseLimit := 0 }

/-- The function `New(http *HTTP)`: the composite literal sets `Client` and
`ResponseLimit` only. The argument is only read and the result is a freshly
allocated struct. -/
def New (http : HTTP) : HTTP :=
  { Client := some (initHTTP http.Timeout http.RetryMax)
    ResponseLimit := http.ResponseLimit }

/-- Addresses of `HTTP` structs. -/
abbrev Ptr := Nat

/-- The `HTTP` structs in memory, by address. -/
abbrev Heap := Ptr → HTTP

/-- The package variable `DefaultClient`: a pointer that is assigned once, at
package initialisation, and never reassigned; only the struct it points to is
mutated. -/
def DefaultClient : Ptr := 0

/-- The assignment `p.field = v` on the struct at address `p`. -/
def Heap.store (m : Heap) (p : Ptr) (f : HTTP → HTTP) : Heap :=
  fun q => if q = p then f (m p) else m q

/-- Package initialisation `var DefaultClient = httpDefault()`. -/
def initPackage (m : Heap) : Heap :=
  m.store DefaultClient (fun _ => httpDefault)

/-- The function `GlobalHttp(h *HTTP)`: four assignments through the pointer
`DefaultClient`, each reading `h` from the memory left by the previous one. -/
def GlobalHttp (h : Ptr) (m : Heap) : Heap :=
  let m := m.store DefaultClient (fun d => { d with Timeout := (m h).Timeout })
  let m := m.store DefaultClient (fun d => { d with RetryMax := (m h).RetryMax })
  let m := m.store DefaultClient (fun d => { d with ResponseLimit := (m h).ResponseLimit })
  let m := m.store DefaultClient (fun d => { d with Client := some (initHTTP (m h).Timeout (m h).RetryMax) })
  m

/-! ## Requests: `http.Header` and `retryablehttp.Request` -/

/-- The function `validHeaderFieldByte` of `net/textproto`: the token characters of
RFC 7230 (ASCII letters, digits and a fixed set of punctuation marks). -/
def validHeaderFieldByte (c : Char) : Bool :=
  c.isAlphanum || "!#$%&'*+-.^_`|~".data.contains c

/-- The rewriting loop of `canonicalMIMEHeaderKey`: upper case for the first
letter and for a letter after a dash, lower case for every other letter. -/
def canonicalLoop : Bool → List Char → List Char
  | _, [] => []
  | upper, c :: cs =>
    let c := if upper && c.isLower then c.toUpper
             else if !upper && c.isUpper then c.toLower
             else c
    c :: canonicalLoop (c == '-') cs

/-- The function `textproto.CanonicalMIMEHeaderKey`: a key with a character
that is not a token character (a space included) is returned unchanged, every
other key is put in canonical form. Keys are taken as text; a Go string with
bytes above the ASCII range holds no token character there and is returned
unchanged as well. -/
def CanonicalMIMEHeaderKey (s : String) : String :=
  if s.data.all validHeaderFieldByte then String.mk (canonicalLoop true s.data) else s

/-- The type `http.Header`, a `map[string][]string`: the values stored under each
key, `none` for a key that is absent. -/
abbrev Header := String → Option (List String)

/-- The method `Header.Set(key, value)`: the entry under the canonical form of `key`
becomes the single value `value`, replacing whatever was there. -/
def Header.Set (h : Header) (key value : String) : Header :=
  fun k => if k = CanonicalMIMEHeaderKey key then some [value] else h k

/-- What the wrapper touches of a `retryablehttp.Request`. -/
structure Request where
  Method : String
  URL : String
  Header : Header
  Body : Option Bytes

/-- The loop `for key, value := range headers { req.Header.Set(key, value) }`.
A Go map has one entry per key and `range` visits the entries in an order the
language leaves unspecified: `headers` lists the entries in the order of the
visit. -/
def setHeaders (headers : List (String × String)) (req : Request) : Request :=
  headers.foldl (fun req kv => { req with Header := req.Header.Set kv.1 kv.2 }) req

/-! ## Responses: the body stream, `io.LimitReader` and `io.ReadAll` -/

/-- The stream `resp.Body`: the bytes still to be delivered and the error that
ends the stream (`io.EOF` for a clean end). `errWithData` tells whether the
call of `Read` that delivers the last bytes already returns that error, or
only the call after it, both of which `io.Reader` allows. -/
structure Body where
  data : Bytes
  err : Error
  errWithData : Bool
  deriving DecidableEq, Repr

/-- One call `n, err := r.Read(p)` with `len(p) = p`: the bytes read, the error,
and the stream afterwards. -/
def Body.Read (r : Body) (p : Nat) : Bytes × Option Error × Body :=
  if r.data.length ≤ p then
    (r.data, if r.data.isEmpty || r.errWithData then some r.err else none, { r with data := [] })
  else
    (r.data.take p, none, { r with data := r.data.drop p })

/-- The struct `io.LimitedReader`, built by `io.LimitReader(r, n)`. -/
structure LimitedReader where
  R : Body
  N : Int
  deriving DecidableEq, Repr

/-- The method `(*LimitedReader).Read`: end of stream once `N <= 0`, otherwise a read
of at most `N` bytes from `R`, which uses up that many of `N`. -/
def LimitedReader.Read (l : LimitedReader) (p : Nat) : Bytes × Option Error × LimitedReader :=
  if l.N ≤ 0 then
    ([], some Error.EOF, l)
  else
    let p := if (p : Int) > l.N then l.N.toNat else p
    let (b, err, R) := l.R.Read p
    (b, err, { R := R, N := l.N - (b.length : Int) })

/-- The two implementations of `io.Reader` that `bodyReader` can hold. -/
inductive Reader where
  | body (r : Body)
  | limited (l : LimitedReader)
  deriving DecidableEq, Repr

/-- The interface call `r.Read(p)`. -/
def Reader.Read : Reader → Nat → Bytes × Option Error × Reader
  | Reader.body r, p => let (b, err, r) := r.Read p; (b, err, Reader.body r)
  | Reader.limited l, p => let (b, err, l) := l.Read p; (b, err, Reader.limited l)

/-- The bytes left in the underlying stream. -/
def Reader.pending : Reader → Nat
  | Reader.body r => r.data.length
  | Reader.limited l => l.R.data.length

/-- The room `io.ReadAll` offers to a call of `Read`: the free capacity of its
buffer, never zero, taken here as the buffer's initial 512 bytes. -/
def bufferRoom : Nat := 512

/-- The loop of `io.ReadAll`, at most `fuel` calls of `Read`: append what each
call reads; stop at the first error, reporting `io.EOF` as no error. -/
def ReadAllLoop : Nat → Reader → Bytes → Option (Bytes × Option Error)
  | 0, _, _ => none
  | fuel + 1, r, b =>
    let (chunk, err, r) := r.Read bufferRoom
    let b := b ++ chunk
    match err with
    | some e => some (b, if e = Error.EOF then none else some e)
    | none => ReadAllLoop fuel r b

/-- The function `io.ReadAll(r)`. Every call of `Read` but the last two delivers
at least one byte, so the loop is given one call per pending byte and two
more; `ReadAll_body` and `ReadAll_limited` show that this is always enough. -/
def ReadAll (r : Reader) : Option (Bytes × Option Error) :=
  ReadAllLoop (r.pending + 2) r []

/-- A `http.Response` as the wrapper sees it. -/
structure Response where
  StatusCode : Int
  Body : Body
  deriving DecidableEq, Repr

/-! ## `type Result struct` and the request executor -/

/-- The struct `Result` of `types.go`. A field that a composite literal leaves
out has Go's zero value, its default here. `ResponseBody` is a Go string, a
sequence of bytes; `Duration` is a number of seconds. -/
structure Result where
  StatusCode : Int := 0
  URL : String := ""
  Duration : ℚ := 0
  ResponseBody : Bytes := []
  Err : Option Error := none
  deriving DecidableEq

/-- A parsed `*url.URL`; the wrapper uses only its method `String()`. -/
structure URL where
  text : String
  deriving DecidableEq, Repr

/-- The method `(*URL).String()`: the URL written out again. -/
def URL.String (u : URL) : String := u.text

/-- What lies outside the repository and outside the model, for one call:
`url.Parse`, `retryablehttp.NewRequest`, the Engine's `Client.Do`, and the
value of `time.Since(startTime).Seconds()`. -/
structure Env where
  Parse : String → Except Error URL
  NewRequest : String → String → Option Bytes → Except Error Request
  Do : Client → Request → Except Error Response
  Seconds : ℚ

/-- What a call leaves behind: the `*Result` it returns and the requests it
handed to the Engine's `Client.Do`, in order. -/
structure Outcome where
  result : Result
  sent : List Request

/-- The variable `bodyReader` of `Post` and `Get`: `resp.Body`, behind
`io.LimitReader(resp.Body, h.ResponseLimit)` when `h.ResponseLimit != 0`. -/
def bodyReader (h : HTTP) (resp : Response) : Reader :=
  if h.ResponseLimit ≠ 0 then Reader.limited { R := resp.Body, N := h.ResponseLimit }
  else Reader.body resp.Body

/-- The method `(h *HTTP) Post`. The result is `none` when the call panics on the
nil pointer `h.Client` (and would be if the read loop ran out of calls, which
`bodyReader_readAll` excludes). The deferred `resp.Body.Close()` changes
nothing in the returned `Result`. -/
def HTTP.Post (env : Env) (h : HTTP) (urlStr : String) (headers : List (String × String))
    (requestBody : Bytes) : Option Outcome :=
  match env.Parse urlStr with
  | Except.error err => some { result := { URL := urlStr, Err := some err }, sent := [] }
  | Except.ok u =>
    match env.NewRequest "POST" u.String (some requestBody) with
    | Except.error err => some { result := { URL := u.String, Err := some err }, sent := [] }
    | Except.ok req =>
      let req := setHeaders headers req
      match h.Client with
      | none => none
      | some client =>
        match env.Do client req with
        | Except.error err => some { result := { URL := u.String, Err := some err }, sent := [req] }
        | Except.ok resp =>
          match ReadAll (bodyReader h resp) with
          | none => none
          | some (b, err) =>
            if err ≠ none ∧ err ≠ some Error.EOF ∧ err ≠ some Error.ErrUnexpectedEOF then
              some { result := { URL := u.String, Err := err }, sent := [req] }
            else
              let durationSeconds := env.Seconds
              some { result := { URL := u.String, ResponseBody := b,
                                 StatusCode := resp.StatusCode, Duration := durationSeconds },
                     sent := [req] }

/-- The method `(h *HTTP) Get`: as `HTTP.Post`, with method `GET` and no body. -/
def HTTP.Get (env : Env) (h : HTTP) (t : String) (headers : List (String × String)) :
    Option Outcome :=
  match env.Parse t with
  | Except.error err => some { result := { URL := t, Err := some err }, sent := [] }
  | Except.ok u =>
    match env.NewRequest "GET" u.String none with
    | Except.error err => some { result := { URL := u.String, Err := some err }, sent := [] }
    | Except.ok req =>
      let req := setHeaders headers req
      match h.Client with
      | none => none
      | some client =>
        match env.Do client req with
        | Except.error err => some { result := { URL := u.String, Err := some err }, sent := [req] }
        | Except.ok resp =>
          match ReadAll (bodyReader h resp) with
          | none => none
          | some (b, err) =>
            if err ≠ none ∧ err ≠ some Error.EOF ∧ err ≠ some Error.ErrUnexpectedEOF then
              some { result := { URL := u.String, Err := err }, sent := [req] }
            else
              let duration := env.Seconds
              some { result := { URL := u.String, ResponseBody := b,
                                 StatusCode := resp.StatusCode, Duration := duration },
                     sent := [req] }

/-- One of the two operations of a client, with the arguments that only it takes. -/
inductive Call where
  | Post (requestBody : Bytes)
  | Get

/-- The method name the operation passes to `retryablehttp.NewRequest`. -/
def Call.method : Call → String
  | Call.Post _ => "POST"
  | Call.Get => "GET"

/-- The raw body the operation passes to `retryablehttp.NewRequest`. -/
def Call.rawBody : Call → Option Bytes
  | Call.Post requestBody => some requestBody
  | Call.Get => none

/-- The call `h.Post(urlStr, headers, requestBody)` or `h.Get(urlStr, headers)`. -/
def HTTP.run (env : Env) (h : HTTP) (call : Call) (urlStr : String)
    (headers : List (String × String)) : Option Outcome :=
  match call with
  | Call.Post requestBody => HTTP.Post env h urlStr headers requestBody
  | Call.Get => HTTP.Get env h urlStr headers

/-- The package function `Post`: `DefaultClient.Post`. -/
def Post (env : Env) (m : Heap) (urlStr : String) (headers : List (String × String))
    (requestBody : Bytes) : Option Outcome :=
  HTTP.Post env (m DefaultClient) urlStr headers requestBody

/-- The package function `Get`: `DefaultClient.Get`. -/
def Get (env : Env) (m : Heap) (t : String) (headers : List (String × String)) :
    Option Outcome :=
  HTTP.Get env (m DefaultClient) t headers

/-! ## A stub world for concrete runs -/

/-- A stub for the outside world. `Parse` rejects a string that starts with a
colon, as `url.Parse` does ("missing protocol scheme"), and takes every other
string as its own canonical form; `NewRequest` builds a request with no
header; the Engine answers every request with `reply`. -/
def stubEnv (reply : Except Error Response) : Env :=
  { Parse := fun s =>
      if s.data.head? = some ':' then Except.error (Error.other "missing protocol scheme")
      else Except.ok { text := s }
    NewRequest := fun method url body =>
      Except.ok { Method := method, URL := url, Header := fun _ => none, Body := body }
    Do := fun _ _ => reply
    Seconds := 2 }

/-- The package function `Post` or `Get`, as `HTTP.run` is for a client. -/
def run (env : Env) (m : Heap) (call : Call) (urlStr : String)
    (headers : List (String × String)) : Option Outcome :=
  match call with
  | Call.Post requestBody => Post env m urlStr headers requestBody
  | Call.Get => Get env m urlStr headers

/-! ## The Engine's retry loop: `(*retryablehttp.Client).Do` -/

/-- What the Engine meets while it serves one request: `roundTrip i` is what
`c.HTTPClient.Do(req.Request)` returns at the attempt with loop index `i`, and
`CheckRetry` is the verdict `(shouldRetry, checkErr)` of the retry policy
`c.CheckRetry` (`DefaultRetryPolicy`, which `initHTTP` leaves in place) on
such an outcome. -/
structure Transport where
  roundTrip : Nat → Except Error Response
  CheckRetry : Except Error Response → Bool × Option Error

/-- The variables of `Do` when its loop is left: the counter `attempt`, the
`resp, doErr` of the last attempt, and the last verdict of the policy. -/
structure Round where
  attempt : Nat
  outcome : Except Error Response
  shouldRetry : Bool
  checkErr : Option Error

/-- The loop `for i := 0; ; i++` of `Do`, from index `i`, at most `fuel` rounds:
attempt the request, ask the policy, and leave the loop when it says not to
retry or when `remain := c.RetryMax - i` is not positive. The wait between two
attempts is not modelled. -/
def retryLoop (c : Client) (net : Transport) : Nat → Nat → Option Round
  | 0, _ => none
  | fuel + 1, i =>
    let outcome := net.roundTrip i
    let (shouldRetry, checkErr) := net.CheckRetry outcome
    if !shouldRetry then
      some { attempt := i + 1, outcome := outcome, shouldRetry := shouldRetry, checkErr := checkErr }
    else if c.RetryMax - (i : Int) ≤ 0 then
      some { attempt := i + 1, outcome := outcome, shouldRetry := shouldRetry, checkErr := checkErr }
    else
      retryLoop c net fuel (i + 1)

/-- What `Do` returns, with the number of attempts it made. -/
structure Attempted where
  response : Except Error Response
  attempt : Nat

/-- The method `(*retryablehttp.Client).Do` of an Engine without hooks and error
handler, as `NewClient` builds it: the loop, then the response when the last
attempt succeeded and the policy neither asked for a retry nor reported an
error, and otherwise the error "giving up after n attempt(s)", whose text is
not modelled. The loop is given one round per allowed retry and one more;
`Client_Do_total` shows that this is always enough. -/
def Client.Do (c : Client) (net : Transport) : Option Attempted :=
  match retryLoop c net (c.RetryMax.toNat + 1) 0 with
  | none => none
  | some r =>
    match r.outcome, r.checkErr, r.shouldRetry with
    | Except.ok resp, none, false => some { response := Except.ok resp, attempt := r.attempt }
    | _, _, _ => some { response := Except.error (Error.other "giving up"), attempt := r.attempt }

/-- The world `env` with its Engine spelled out: `Client.Do` is the retry loop of
the client on the network `net req`. -/
def Env.onNetwork (env : Env) (net : Request → Transport) : Env :=
  { env with
    Do := fun client req =>
      match Client.Do client (net req) with
      | some a => a.response
      | none => Except.error (Error.other "giving up") }

/-- A network on which every attempt fails to connect, which the retry policy
takes as worth another attempt. -/
def downNet : Transport :=
  { roundTrip := fun _ => Except.error (Error.other "connection refused")
    CheckRetry := fun _ => (true, none) }

/-! ## What `io.ReadAll` returns -/

/-- How `io.ReadAll` reports the error that ended the stream: `io.EOF` is no error. -/
def reported (e : Error) : Option Error := if e = Error.EOF then none else some e

/-- What reading a stream through `io.LimitReader(r, n)` to its end yields, in closed
form. -/
def LimitedReader.all (l : LimitedReader) : Bytes × Option Error :=
  if l.N ≤ 0 then ([], none)
  else if l.N < (l.R.data.length : Int) then (l.R.data.take l.N.toNat, none)
  else if l.N = (l.R.data.length : Int) ∧ l.R.errWithData = false then (l.R.data, none)
  else (l.R.data, reported l.R.err)

theorem bufferRoom_pos : 0 < bufferRoom := by decide

theorem ReadAllLoop_body (fuel : Nat) : ∀ (r : Body) (b : Bytes), r.data.length + 2 ≤ fuel →
    ReadAllLoop fuel (Reader.body r) b = some (b ++ r.data, reported r.err) := by
  induction fuel with
  | zero => intro r b h; omega
  | succ fuel ih =>
    intro r b h
    have hroom := bufferRoom_pos
    by_cases hlen : r.data.length ≤ bufferRoom
    · by_cases hlast : (r.data.isEmpty || r.errWithData) = true
      · simp [ReadAllLoop, Reader.Read, Body.Read, hlen, hlast, reported]
      · have hne : r.data ≠ [] := by
          intro h0; simp [h0] at hlast
        have hpos : 0 < r.data.length := List.length_pos.mpr hne
        have := ih { r with data := [] } (b ++ r.data) (by simp; omega)
        simp [ReadAllLoop, Reader.Read, Body.Read, hlen, hlast]
        simpa using this
    · have := ih { r with data := r.data.drop bufferRoom } (b ++ r.data.take bufferRoom)
        (by simp; omega)
      simp [ReadAllLoop, Reader.Read, Body.Read, hlen]
      simpa [List.append_assoc] using this

theorem ReadAll_body (r : Body) :
    ReadAll (Reader.body r) = some (r.data, reported r.err) := by
  simpa [ReadAll, Reader.pending] using ReadAllLoop_body (r.data.length + 2) r [] (le_refl _)

theorem LimitedReader.Read_pos (R : Body) (n p : Nat) (hn : 0 < n) :
    LimitedReader.Read { R := R, N := (n : Int) } p =
      ((R.Read (min p n)).1, (R.Read (min p n)).2.1,
        { R := (R.Read (min p n)).2.2,
          N := ((n - (R.Read (min p n)).1.length : Nat) : Int) }) := by
  have hnpos : ¬ ((n : Int) ≤ 0) := by omega
  have hp : (if (p : Int) > (n : Int) then (n : Int).toNat else p) = min p n := by
    split <;> omega
  have hle : (R.Read (min p n)).1.length ≤ n := by
    unfold Body.Read
    split
    · simp only; omega
    · simp
  simp only [LimitedReader.Read, hnpos, if_false, hp]
  congr 3
  omega

theorem LimitedReader.all_natCast (R : Body) (n : Nat) :
    LimitedReader.all { R := R, N := (n : Int) } =
      if n = 0 then ([], none)
      else if n < R.data.length then (R.data.take n, none)
      else if n = R.data.length ∧ R.errWithData = false then (R.data, none)
      else (R.data, reported R.err) := by
  unfold LimitedReader.all
  simp only [Int.toNat_ofNat, Nat.cast_lt, Nat.cast_inj]
  by_cases h : n = 0
  · simp [h]
  · have : ¬ ((n : Int) ≤ 0) := by omega
    simp [h, this]

theorem ReadAllLoop_limited (fuel : Nat) : ∀ (R : Body) (n : Nat) (b : Bytes),
    R.data.length + 2 ≤ fuel →
    ReadAllLoop fuel (Reader.limited { R := R, N := (n : Int) }) b =
      some (b ++ (LimitedReader.all { R := R, N := (n : Int) }).1,
            (LimitedReader.all { R := R, N := (n : Int) }).2) := by
  induction fuel with
  | zero => intro R n b h; omega
  | succ fuel ih =>
    intro R n b h
    by_cases hn : n = 0
    · subst hn
      simp [ReadAllLoop, Reader.Read, LimitedReader.Read, LimitedReader.all]
    · have hstep := LimitedReader.Read_pos R n bufferRoom (by omega)
      have hroom := bufferRoom_pos
      have hp1 : 0 < min bufferRoom n := by omega
      have hp2 : min bufferRoom n ≤ n := by omega
      generalize min bufferRoom n = p at hstep hp1 hp2
      simp only [ReadAllLoop, Reader.Read, hstep]
      by_cases hlen : R.data.length ≤ p
      · by_cases hlast : (R.data.isEmpty || R.errWithData) = true
        · have hcl : ¬ (n = R.data.length ∧ R.errWithData = false) := by
            rintro ⟨h1, h2⟩
            simp [h2] at hlast
            simp [hlast] at h1
            exact hn h1
          have hlt : ¬ (n < R.data.length) := by omega
          simp [Body.Read, hlen, hlast, LimitedReader.all_natCast, hn, hcl, hlt, reported]
        · have hne : R.data ≠ [] := by
            intro h0; simp [h0] at hlast
          have hewd : R.errWithData = false := by
            cases hb : R.errWithData <;> simp [hb] at hlast ⊢
          have hpos : 0 < R.data.length := List.length_pos.mpr hne
          have hlt : ¬ (n < R.data.length) := by omega
          have := ih { R with data := [] } (n - R.data.length) (b ++ R.data) (by simp; omega)
          simp only [Body.Read, hlen, hlast, if_true, if_false]
          rw [this]
          simp only [LimitedReader.all_natCast, hn, hlt, hewd, if_false]
          by_cases heq : n = R.data.length
          · simp [heq]
          · have : ¬ (n - R.data.length = 0) := by omega
            simp [heq, this]
      · have hlt : n < R.data.length ∨ ¬ (n < R.data.length) := by omega
        have := ih { R with data := R.data.drop p } (n - p) (b ++ R.data.take p) (by simp; omega)
        simp only [Body.Read, hlen, if_false]
        have htl : (List.take p R.data).length = p := by simp; omega
        rw [htl, this]
        simp only [LimitedReader.all_natCast, hn, if_false, List.length_drop]
        have hplen : p < R.data.length := by omega
        by_cases hnp : n = p
        · subst hnp
          simp [hplen]
        · have h0 : ¬ (n - p = 0) := by omega
          have hsplit : List.take p R.data ++ List.take (n - p) (List.drop p R.data)
              = List.take n R.data := by
            have := List.take_add R.data p (n - p)
            rw [← this]
            congr 1
            omega
          by_cases h1 : n < R.data.length
          · have h1' : n - p < R.data.length - p := by omega
            simp [h0, h1, h1', hsplit]
          · have h1' : ¬ (n - p < R.data.length - p) := by omega
            by_cases h2 : n = R.data.length
            · subst h2
              by_cases h3 : R.errWithData = false
              · simp [h0, h3]
              · simp [h0, h3]
            · have h2' : ¬ (n - p = R.data.length - p) := by omega
              simp [h0, h1, h1', h2, h2']

theorem ReadAll_limited (l : LimitedReader) :
    ReadAll (Reader.limited l) = some l.all := by
  obtain ⟨R, N⟩ := l
  by_cases hN : N ≤ 0
  · simp [ReadAll, ReadAllLoop, Reader.Read, LimitedReader.Read, LimitedReader.all, hN]
  · obtain ⟨n, rfl⟩ : ∃ n : Nat, N = (n : Int) := ⟨N.toNat, by omega⟩
    simpa [ReadAll, Reader.pending] using ReadAllLoop_limited (R.data.length + 2) R n [] (le_refl _)

/-! ## The paths through `Post` and `Get` -/

theorem bodyReader_readAll (h : HTTP) (resp : Response) :
    ReadAll (bodyReader h resp) =
      some (if h.ResponseLimit ≠ 0 then
              LimitedReader.all { R := resp.Body, N := h.ResponseLimit }
            else (resp.Body.data, reported resp.Body.err)) := by
  unfold bodyReader
  split
  · exact ReadAll_limited _
  · exact ReadAll_body _

theorem run_parse_error (env : Env) (h : HTTP) (call : Call) (urlStr : String)
    (headers : List (String × String)) (e : Error)
    (hu : env.Parse urlStr = Except.error e) :
    HTTP.run env h call urlStr headers =
      some { result := { URL := urlStr, Err := some e }, sent := [] } := by
  cases call <;> simp [HTTP.run, HTTP.Post, HTTP.Get, hu]

theorem run_do_error (env : Env) (h : HTTP) (call : Call) (urlStr : String)
    (headers : List (String × String)) (u : URL) (req : Request) (client : Client) (e : Error)
    (hu : env.Parse urlStr = Except.ok u)
    (hreq : env.NewRequest call.method u.String call.rawBody = Except.ok req)
    (hc : h.Client = some client)
    (hdo : env.Do client (setHeaders headers req) = Except.error e) :
    HTTP.run env h call urlStr headers =
      some { result := { URL := u.String, Err := some e }, sent := [setHeaders headers req] } := by
  cases call <;> simp [Call.method, Call.rawBody] at hreq <;>
    simp [HTTP.run, HTTP.Post, HTTP.Get, hu, hreq, hc, hdo]

theorem run_do_ok (env : Env) (h : HTTP) (call : Call) (urlStr : String)
    (headers : List (String × String)) (u : URL) (req : Request) (client : Client)
    (resp : Response) (b : Bytes) (err : Option Error)
    (hu : env.Parse urlStr = Except.ok u)
    (hreq : env.NewRequest call.method u.String call.rawBody = Except.ok req)
    (hc : h.Client = some client)
    (hdo : env.Do client (setHeaders headers req) = Except.ok resp)
    (hread : ReadAll (bodyReader h resp) = some (b, err)) :
    HTTP.run env h call urlStr headers =
      if err ≠ none ∧ err ≠ some Error.EOF ∧ err ≠ some Error.ErrUnexpectedEOF then
        some { result := { URL := u.String, Err := err }, sent := [setHeaders headers req] }
      else
        some { result := { URL := u.String, ResponseBody := b, StatusCode := resp.StatusCode,
                           Duration := env.Seconds },
               sent := [setHeaders headers req] } := by
  cases call <;> simp only [Call.method, Call.rawBody] at hreq <;>
    simp only [HTTP.run, HTTP.Post, HTTP.Get, hu, hreq, hc, hdo, hread]

theorem run_do_ok_cases (env : Env) (h : HTTP) (call : Call) (urlStr : String)
    (headers : List (String × String)) (u : URL) (req : Request) (client : Client)
    (resp : Response) (b : Bytes) (err : Option Error)
    (hu : env.Parse urlStr = Except.ok u)
    (hreq : env.NewRequest call.method u.String call.rawBody = Except.ok req)
    (hc : h.Client = some client)
    (hdo : env.Do client (setHeaders headers req) = Except.ok resp)
    (hread : ReadAll (bodyReader h resp) = some (b, err)) :
    ∃ out, HTTP.run env h call urlStr headers = some out ∧
      out.sent = [setHeaders headers req] ∧
      ((err = none ∨ err = some Error.EOF ∨ err = some Error.ErrUnexpectedEOF) →
        out.result = { URL := u.String, ResponseBody := b, StatusCode := resp.StatusCode,
                       Duration := env.Seconds }) ∧
      (¬ (err = none ∨ err = some Error.EOF ∨ err = some Error.ErrUnexpectedEOF) →
        out.result = { URL := u.String, Err := err }) := by
  have hrun := run_do_ok env h call urlStr headers u req client resp b err hu hreq hc hdo hread
  by_cases hbad : err ≠ none ∧ err ≠ some Error.EOF ∧ err ≠ some Error.ErrUnexpectedEOF
  · rw [if_pos hbad] at hrun
    refine ⟨_, hrun, rfl, ?_, fun _ => rfl⟩
    intro hok
    exfalso
    rcases hok with h1 | h1 | h1
    · exact hbad.1 h1
    · exact hbad.2.1 h1
    · exact hbad.2.2 h1
  · rw [if_neg hbad] at hrun
    refine ⟨_, hrun, rfl, fun _ => rfl, ?_⟩
    intro hnot
    exfalso
    apply hbad
    refine ⟨fun h1 => hnot (Or.inl h1), fun h1 => hnot (Or.inr (Or.inl h1)),
      fun h1 => hnot (Or.inr (Or.inr h1))⟩

theorem LimitedReader.all_length (l : LimitedReader) (hN : 0 < l.N) :
    (l.all.1.length : Int) ≤ l.N := by
  have hnle : ¬ l.N ≤ 0 := by omega
  unfold LimitedReader.all
  simp only [hnle, if_false]
  split
  · simp only [List.length_take]; omega
  · split <;> simp only <;> omega

theorem LimitedReader.all_of_stream_end (l : LimitedReader) (hN : 0 < l.N)
    (hok : l.N < (l.R.data.length : Int) ∨ l.R.err = Error.EOF ∨
      l.R.err = Error.ErrUnexpectedEOF) :
    l.all.1 = l.R.data.take l.N.toNat ∧
      (l.all.2 = none ∨ l.all.2 = some Error.ErrUnexpectedEOF) := by
  have hnle : ¬ l.N ≤ 0 := by omega
  unfold LimitedReader.all
  simp only [hnle, if_false]
  by_cases hlt : l.N < (l.R.data.length : Int)
  · simp [hlt]
  · have htake : l.R.data.take l.N.toNat = l.R.data := by
      apply List.take_of_length_le
      omega
    simp only [hlt, if_false, htake]
    split
    · simp
    · rcases hok with h1 | h1 | h1
      · exact absurd h1 hlt
      · simp [h1, reported]
      · simp [h1, reported]

/-! ## The request executor: error paths -/

/-- C1. When `url.Parse` fails on `urlStr`, `Post` and `Get` return, for every client,
headers and body, the `Result` with `URL` the raw `urlStr`, `Err` the parse
error, and `StatusCode` 0, `ResponseBody` empty and `Duration` 0; nothing was
handed to the Engine. -/
theorem parse_failure_returns_raw_url (env : Env) (h : HTTP) (call : Call) (urlStr : String)
    (headers : List (String × String)) (e : Error)
    (hu : env.Parse urlStr = Except.error e) :
    HTTP.run env h call urlStr headers =
      some { result := { StatusCode := 0, URL := urlStr, Duration := 0, ResponseBody := [],
                         Err := some e },
             sent := [] } :=
  run_parse_error env h call urlStr headers e hu

theorem parse_failure_returns_raw_url_witness :
    (stubEnv (Except.error Error.EOF)).Parse ":stub" =
        Except.error (Error.other "missing protocol scheme") ∧
      HTTP.run (stubEnv (Except.error Error.EOF)) httpDefault (Call.Post [104, 105]) ":stub"
          [("X-Test", "1")] =
        some { result := { StatusCode := 0, URL := ":stub", Duration := 0, ResponseBody := [],
                           Err := some (Error.other "missing protocol scheme") },
               sent := [] } :=
  ⟨rfl, parse_failure_returns_raw_url (stubEnv (Except.error Error.EOF)) httpDefault
    (Call.Post [104, 105]) ":stub" [("X-Test", "1")] (Error.other "missing protocol scheme") rfl⟩

/-- C4. When the URL parses and the Engine's `Client.Do` returns the error `e`, `Post`
and `Get` return the `Result` with `Err` equal to `e`, `URL` the re-serialized URL,
and `StatusCode` 0, `ResponseBody` empty and `Duration` 0. -/
theorem engine_error_short_circuits (env : Env) (h : HTTP) (call : Call) (urlStr : String)
    (headers : List (String × String)) (u : URL) (req : Request) (client : Client) (e : Error)
    (hu : env.Parse urlStr = Except.ok u)
    (hreq : env.NewRequest call.method u.String call.rawBody = Except.ok req)
    (hc : h.Client = some client)
    (hdo : env.Do client (setHeaders headers req) = Except.error e) :
    HTTP.run env h call urlStr headers =
      some { result := { StatusCode := 0, URL := u.String, Duration := 0, ResponseBody := [],
                         Err := some e },
             sent := [setHeaders headers req] } :=
  run_do_error env h call urlStr headers u req client e hu hreq hc hdo

theorem engine_error_short_circuits_witness :
    (stubEnv (Except.error (Error.other "connection refused"))).Parse "http://stub/down" =
        Except.ok { text := "http://stub/down" } ∧
      httpDefault.Client = some (initHTTP 10 3) ∧
      (HTTP.run (stubEnv (Except.error (Error.other "connection refused"))) httpDefault Call.Get
          "http://stub/down" []).map (fun o => o.result) =
        some { StatusCode := 0, URL := "http://stub/down", Duration := 0, ResponseBody := [],
               Err := some (Error.other "connection refused") } :=
  ⟨rfl, rfl, by
    rw [engine_error_short_circuits (stubEnv (Except.error (Error.other "connection refused")))
      httpDefault Call.Get "http://stub/down" [] { text := "http://stub/down" }
      { Method := "GET", URL := "http://stub/down", Header := fun _ => none, Body := none }
      (initHTTP 10 3) (Error.other "connection refused") rfl rfl rfl rfl]
    rfl⟩

/-! ## The request executor: reading the body -/

/-- C3. With `ResponseLimit = 0`, a URL that parses, and an Engine response with status
`s` whose body reads to a clean end of stream, `Post` and `Get` return the
`Result` with that `StatusCode`, the whole body as `ResponseBody`, the
re-serialized URL as `URL`, and no `Err`. -/
theorem unlimited_read_returns_whole_body (env : Env) (h : HTTP) (call : Call) (urlStr : String)
    (headers : List (String × String)) (u : URL) (req : Request) (client : Client)
    (resp : Response)
    (hu : env.Parse urlStr = Except.ok u)
    (hreq : env.NewRequest call.method u.String call.rawBody = Except.ok req)
    (hc : h.Client = some client)
    (hdo : env.Do client (setHeaders headers req) = Except.ok resp)
    (hlimit : h.ResponseLimit = 0)
    (heof : resp.Body.err = Error.EOF) :
    HTTP.run env h call urlStr headers =
      some { result := { StatusCode := resp.StatusCode, URL := u.String, Duration := env.Seconds,
                         ResponseBody := resp.Body.data, Err := none },
             sent := [setHeaders headers req] } := by
  have hread : ReadAll (bodyReader h resp) = some (resp.Body.data, none) := by
    rw [bodyReader_readAll]
    simp [hlimit, heof, reported]
  rw [run_do_ok env h call urlStr headers u req client resp _ _ hu hreq hc hdo hread]
  simp

theorem unlimited_read_returns_whole_body_witness :
    (stubEnv (Except.ok ⟨200, ⟨[104, 101, 108, 108, 111], Error.EOF, false⟩⟩)).Parse
        "http://stub/echo" = Except.ok { text := "http://stub/echo" } ∧
      httpDefault.Client = some (initHTTP 10 3) ∧
      httpDefault.ResponseLimit = 0 ∧
      (HTTP.run (stubEnv (Except.ok ⟨200, ⟨[104, 101, 108, 108, 111], Error.EOF, false⟩⟩))
          httpDefault (Call.Post [104, 101, 108, 108, 111]) "http://stub/echo"
          [("X-Test", "1")]).map (fun o => o.result) =
        some { StatusCode := 200, URL := "http://stub/echo", Duration := 2,
               ResponseBody := [104, 101, 108, 108, 111], Err := none } :=
  ⟨rfl, rfl, rfl, by
    rw [unlimited_read_returns_whole_body
      (stubEnv (Except.ok ⟨200, ⟨[104, 101, 108, 108, 111], Error.EOF, false⟩⟩))
      httpDefault (Call.Post [104, 101, 108, 108, 111]) "http://stub/echo" [("X-Test", "1")]
      { text := "http://stub/echo" }
      { Method := "POST", URL := "http://stub/echo", Header := fun _ => none,
        Body := some [104, 101, 108, 108, 111] }
      (initHTTP 10 3) ⟨200, ⟨[104, 101, 108, 108, 111], Error.EOF, false⟩⟩ rfl rfl rfl rfl rfl rfl]
    rfl⟩

/-- C10. With a negative `ResponseLimit`, `Post` and `Get` read through the limited
reader and return, for every Engine response and whatever its body holds, a
successful `Result`: no `Err`, the response's `StatusCode`, and an empty
`ResponseBody`. -/
theorem negative_limit_discards_body (env : Env) (h : HTTP) (call : Call) (urlStr : String)
    (headers : List (String × String)) (u : URL) (req : Request) (client : Client)
    (resp : Response)
    (hu : env.Parse urlStr = Except.ok u)
    (hreq : env.NewRequest call.method u.String call.rawBody = Except.ok req)
    (hc : h.Client = some client)
    (hdo : env.Do client (setHeaders headers req) = Except.ok resp)
    (hlimit : h.ResponseLimit < 0) :
    bodyReader h resp = Reader.limited { R := resp.Body, N := h.ResponseLimit } ∧
    HTTP.run env h call urlStr headers =
      some { result := { StatusCode := resp.StatusCode, URL := u.String, Duration := env.Seconds,
                         ResponseBody := [], Err := none },
             sent := [setHeaders headers req] } := by
  have hne : h.ResponseLimit ≠ 0 := by omega
  have hle : h.ResponseLimit ≤ 0 := by omega
  have hread : ReadAll (bodyReader h resp) = some ([], none) := by
    rw [bodyReader_readAll]
    simp [hne, LimitedReader.all, hle]
  refine ⟨by simp [bodyReader, hne], ?_⟩
  rw [run_do_ok env h call urlStr headers u req client resp _ _ hu hreq hc hdo hread]
  simp

theorem negative_limit_discards_body_witness :
    (stubEnv (Except.ok ⟨200, ⟨[104, 105], Error.other "connection reset", true⟩⟩)).Parse
        "http://stub/echo" = Except.ok { text := "http://stub/echo" } ∧
      (-1 : Int) < 0 ∧
      (HTTP.run (stubEnv (Except.ok ⟨200, ⟨[104, 105], Error.other "connection reset", true⟩⟩))
          { Client := some (initHTTP 10 3), ResponseLimit := -1 } Call.Get "http://stub/echo"
          []).map (fun o => o.result) =
        some { StatusCode := 200, URL := "http://stub/echo", Duration := 2,
               ResponseBody := [], Err := none } :=
  ⟨rfl, by decide, by
    rw [(negative_limit_discards_body
      (stubEnv (Except.ok ⟨200, ⟨[104, 105], Error.other "connection reset", true⟩⟩))
      { Client := some (initHTTP 10 3), ResponseLimit := -1 } Call.Get "http://stub/echo" []
      { text := "http://stub/echo" }
      { Method := "GET", URL := "http://stub/echo", Header := fun _ => none, Body := none }
      (initHTTP 10 3) ⟨200, ⟨[104, 105], Error.other "connection reset", true⟩⟩
      rfl rfl rfl rfl (by decide)).2]
    rfl⟩

/-- C2, as the code has it. With `ResponseLimit = N > 0` and an Engine response, the
`ResponseBody` of the `Result` of `Post` and `Get` is never longer than `N`
bytes. When the body holds more than `N` bytes, or its stream ends in `io.EOF`
or `io.ErrUnexpectedEOF`, the `Result` is a success: `ResponseBody` is the
first `min(N, len)` bytes of the body, `StatusCode` is the response's and
`Err` is absent, so that truncation is not an error. -/
theorem positive_limit_truncates (env : Env) (h : HTTP) (call : Call) (urlStr : String)
    (headers : List (String × String)) (u : URL) (req : Request) (client : Client)
    (resp : Response)
    (hu : env.Parse urlStr = Except.ok u)
    (hreq : env.NewRequest call.method u.String call.rawBody = Except.ok req)
    (hc : h.Client = some client)
    (hdo : env.Do client (setHeaders headers req) = Except.ok resp)
    (hlimit : 0 < h.ResponseLimit) :
    ∃ out, HTTP.run env h call urlStr headers = some out ∧
      (out.result.ResponseBody.length : Int) ≤ h.ResponseLimit ∧
      ((h.ResponseLimit < (resp.Body.data.length : Int) ∨ resp.Body.err = Error.EOF ∨
          resp.Body.err = Error.ErrUnexpectedEOF) →
        out.result.ResponseBody = resp.Body.data.take h.ResponseLimit.toNat ∧
        out.result.StatusCode = resp.StatusCode ∧
        out.result.Err = none) := by
  have hne : h.ResponseLimit ≠ 0 := by omega
  have hread := bodyReader_readAll h resp
  rw [if_pos hne] at hread
  have hlen := LimitedReader.all_length { R := resp.Body, N := h.ResponseLimit } hlimit
  have hend := LimitedReader.all_of_stream_end { R := resp.Body, N := h.ResponseLimit } hlimit
  generalize LimitedReader.all { R := resp.Body, N := h.ResponseLimit } = read at hread hlen hend
  obtain ⟨b, err⟩ := read
  obtain ⟨out, hrun, -, hgood, hbad⟩ :=
    run_do_ok_cases env h call urlStr headers u req client resp b err hu hreq hc hdo hread
  refine ⟨out, hrun, ?_, ?_⟩
  · by_cases hcase : err = none ∨ err = some Error.EOF ∨ err = some Error.ErrUnexpectedEOF
    · rw [hgood hcase]
      exact hlen
    · rw [hbad hcase]
      simp only [List.length_nil, Nat.cast_zero]
      omega
  · intro hok
    obtain ⟨hb, herr⟩ := hend hok
    have hcase : err = none ∨ err = some Error.EOF ∨ err = some Error.ErrUnexpectedEOF := by
      rcases herr with h1 | h1
      · exact Or.inl h1
      · exact Or.inr (Or.inr h1)
    rw [hgood hcase]
    exact ⟨hb, rfl, rfl⟩

theorem positive_limit_truncates_witness :
    (stubEnv (Except.ok ⟨200, ⟨[104, 101, 108, 108, 111], Error.EOF, false⟩⟩)).Parse
        "http://stub/echo" = Except.ok { text := "http://stub/echo" } ∧
      (0 : Int) < 2 ∧
      ∃ out,
        HTTP.run (stubEnv (Except.ok ⟨200, ⟨[104, 101, 108, 108, 111], Error.EOF, false⟩⟩))
          { Client := some (initHTTP 10 3), ResponseLimit := 2 } Call.Get "http://stub/echo" []
          = some out ∧
        (out.result.ResponseBody.length : Int) ≤ 2 ∧
        (((2 : Int) < (([104, 101, 108, 108, 111] : Bytes).length : Int) ∨
            Error.EOF = Error.EOF ∨ Error.EOF = Error.ErrUnexpectedEOF) →
          out.result.ResponseBody = ([104, 101, 108, 108, 111] : Bytes).take (2 : Int).toNat ∧
          out.result.StatusCode = 200 ∧
          out.result.Err = none) :=
  ⟨rfl, by decide,
    positive_limit_truncates
      (stubEnv (Except.ok ⟨200, ⟨[104, 101, 108, 108, 111], Error.EOF, false⟩⟩))
      { Client := some (initHTTP 10 3), ResponseLimit := 2 } Call.Get "http://stub/echo" []
      { text := "http://stub/echo" }
      { Method := "GET", URL := "http://stub/echo", Header := fun _ => none, Body := none }
      (initHTTP 10 3) ⟨200, ⟨[104, 101, 108, 108, 111], Error.EOF, false⟩⟩
      rfl rfl rfl rfl (by decide)⟩

/-- C2 as stated fails. The Engine answers with status 200 and a body that delivers
two bytes and then fails with a connection error; the client has
`ResponseLimit = 5`. `Post` and `Get` return a `Result` whose `Err` is that
error and whose `ResponseBody` is empty, not the two bytes. -/
theorem positive_limit_read_error_counterexample :
    (HTTP.Post (stubEnv (Except.ok ⟨200, ⟨[104, 105], Error.other "connection reset", false⟩⟩))
        { Client := some (initHTTP 10 3), ResponseLimit := 5 } "http://stub/echo" []
        []).map (fun o => o.result) =
      some { StatusCode := 0, URL := "http://stub/echo", Duration := 0, ResponseBody := [],
             Err := some (Error.other "connection reset") } ∧
    (HTTP.Get (stubEnv (Except.ok ⟨200, ⟨[104, 105], Error.other "connection reset", false⟩⟩))
        { Client := some (initHTTP 10 3), ResponseLimit := 5 } "http://stub/echo"
        []).map (fun o => o.result) =
      some { StatusCode := 0, URL := "http://stub/echo", Duration := 0, ResponseBody := [],
             Err := some (Error.other "connection reset") } := by
  decide

/-- C5. For every Engine response, `io.ReadAll` on the body reader returns some bytes
`b` and an error value `err`, and the `Result` of `Post` and `Get` has `Err`
set exactly when `err` is an error other than `io.EOF` and
`io.ErrUnexpectedEOF`. When the read ended at the end of the stream, clean or
unexpected, the `Result` is a success with `ResponseBody = b` and the
response's `StatusCode`; when it failed for another reason the `Result`
carries that error. Without a limit, `b` is all the stream delivered and `err`
is the error that ended it, `io.EOF` counting as none. -/
theorem read_error_iff_not_stream_end (env : Env) (h : HTTP) (call : Call) (urlStr : String)
    (headers : List (String × String)) (u : URL) (req : Request) (client : Client)
    (resp : Response)
    (hu : env.Parse urlStr = Except.ok u)
    (hreq : env.NewRequest call.method u.String call.rawBody = Except.ok req)
    (hc : h.Client = some client)
    (hdo : env.Do client (setHeaders headers req) = Except.ok resp) :
    ∃ b err out, ReadAll (bodyReader h resp) = some (b, err) ∧
      HTTP.run env h call urlStr headers = some out ∧
      (out.result.Err ≠ none ↔
        ∃ e, err = some e ∧ e ≠ Error.EOF ∧ e ≠ Error.ErrUnexpectedEOF) ∧
      ((err = none ∨ err = some Error.EOF ∨ err = some Error.ErrUnexpectedEOF) →
        out.result.Err = none ∧ out.result.ResponseBody = b ∧
        out.result.StatusCode = resp.StatusCode) ∧
      (∀ e, err = some e → e ≠ Error.EOF → e ≠ Error.ErrUnexpectedEOF →
        out.result.Err = some e) ∧
      (h.ResponseLimit = 0 → b = resp.Body.data ∧ err = reported resp.Body.err) := by
  have hread := bodyReader_readAll h resp
  have hzero : h.ResponseLimit = 0 →
      (if h.ResponseLimit ≠ 0 then LimitedReader.all { R := resp.Body, N := h.ResponseLimit }
        else (resp.Body.data, reported resp.Body.err)) =
      (resp.Body.data, reported resp.Body.err) := by
    intro h0
    simp [h0]
  generalize (if h.ResponseLimit ≠ 0 then LimitedReader.all { R := resp.Body, N := h.ResponseLimit }
        else (resp.Body.data, reported resp.Body.err)) = read at hread hzero
  obtain ⟨b, err⟩ := read
  obtain ⟨out, hrun, -, hgood, hbad⟩ :=
    run_do_ok_cases env h call urlStr headers u req client resp b err hu hreq hc hdo hread
  refine ⟨b, err, out, hread, hrun, ?_, ?_, ?_, ?_⟩
  · by_cases hcase : err = none ∨ err = some Error.EOF ∨ err = some Error.ErrUnexpectedEOF
    · rw [hgood hcase]
      constructor
      · intro hne
        exact absurd rfl hne
      · rintro ⟨e, he, h1, h2⟩
        subst he
        rcases hcase with h3 | h3 | h3
        · exact absurd h3 (by simp)
        · exact absurd (Option.some.inj h3) h1
        · exact absurd (Option.some.inj h3) h2
    · rw [hbad hcase]
      constructor
      · intro _
        cases err with
        | none => exact absurd (Or.inl rfl) hcase
        | some e =>
          refine ⟨e, rfl, ?_, ?_⟩
          · intro h1
            exact hcase (Or.inr (Or.inl (by rw [h1])))
          · intro h1
            exact hcase (Or.inr (Or.inr (by rw [h1])))
      · rintro ⟨e, he, -, -⟩
        simp [he]
  · intro hcase
    rw [hgood hcase]
    exact ⟨rfl, rfl, rfl⟩
  · intro e he h1 h2
    have hcase : ¬ (err = none ∨ err = some Error.EOF ∨ err = some Error.ErrUnexpectedEOF) := by
      subst he
      rintro (h3 | h3 | h3)
      · exact absurd h3 (by simp)
      · exact h1 (Option.some.inj h3)
      · exact h2 (Option.some.inj h3)
    rw [hbad hcase]
    exact he
  · intro h0
    have := hzero h0
    exact ⟨congrArg Prod.fst this, congrArg Prod.snd this⟩

theorem read_error_iff_not_stream_end_witness :
    (stubEnv (Except.ok ⟨206, ⟨[104, 101, 108], Error.ErrUnexpectedEOF, true⟩⟩)).Parse
        "http://stub/echo" = Except.ok { text := "http://stub/echo" } ∧
      httpDefault.Client = some (initHTTP 10 3) ∧
      ∃ b err out,
        ReadAll (bodyReader httpDefault ⟨206, ⟨[104, 101, 108], Error.ErrUnexpectedEOF, true⟩⟩) =
          some (b, err) ∧
        HTTP.run (stubEnv (Except.ok ⟨206, ⟨[104, 101, 108], Error.ErrUnexpectedEOF, true⟩⟩))
          httpDefault Call.Get "http://stub/echo" [] = some out ∧
        (out.result.Err ≠ none ↔
          ∃ e, err = some e ∧ e ≠ Error.EOF ∧ e ≠ Error.ErrUnexpectedEOF) ∧
        ((err = none ∨ err = some Error.EOF ∨ err = some Error.ErrUnexpectedEOF) →
          out.result.Err = none ∧ out.result.ResponseBody = b ∧
          out.result.StatusCode = 206) ∧
        (∀ e, err = some e → e ≠ Error.EOF → e ≠ Error.ErrUnexpectedEOF →
          out.result.Err = some e) ∧
        (httpDefault.ResponseLimit = 0 →
          b = [104, 101, 108] ∧ err = reported Error.ErrUnexpectedEOF) :=
  ⟨rfl, rfl,
    read_error_iff_not_stream_end
      (stubEnv (Except.ok ⟨206, ⟨[104, 101, 108], Error.ErrUnexpectedEOF, true⟩⟩))
      httpDefault Call.Get "http://stub/echo" [] { text := "http://stub/echo" }
      { Method := "GET", URL := "http://stub/echo", Header := fun _ => none, Body := none }
      (initHTTP 10 3) ⟨206, ⟨[104, 101, 108], Error.ErrUnexpectedEOF, true⟩⟩ rfl rfl rfl rfl⟩

/-! ## The request executor: headers -/

theorem setHeaders_cons (kv : String × String) (headers : List (String × String))
    (req : Request) :
    setHeaders (kv :: headers) req =
      setHeaders headers { req with Header := req.Header.Set kv.1 kv.2 } := rfl

theorem setHeaders_fields (headers : List (String × String)) : ∀ req : Request,
    (setHeaders headers req).Method = req.Method ∧ (setHeaders headers req).URL = req.URL ∧
      (setHeaders headers req).Body = req.Body := by
  induction headers with
  | nil => intro req; exact ⟨rfl, rfl, rfl⟩
  | cons kv headers ih =>
    intro req
    rw [setHeaders_cons]
    exact ih _

theorem setHeaders_untouched (key : String) (headers : List (String × String)) :
    ∀ req : Request, (∀ kv ∈ headers, CanonicalMIMEHeaderKey kv.1 ≠ key) →
      (setHeaders headers req).Header key = req.Header key := by
  induction headers with
  | nil => intro req _; rfl
  | cons kv headers ih =>
    intro req hkeys
    rw [setHeaders_cons, ih _ (fun p hp => hkeys p (List.mem_cons_of_mem _ hp))]
    have hne : key ≠ CanonicalMIMEHeaderKey kv.1 :=
      fun heq => hkeys kv (List.mem_cons_self _ _) heq.symm
    simp [Header.Set, hne]

theorem setHeaders_entry (headers : List (String × String)) :
    ∀ req : Request, (headers.map Prod.fst).Nodup →
      (∀ p ∈ headers, ∀ q ∈ headers,
        CanonicalMIMEHeaderKey p.1 = CanonicalMIMEHeaderKey q.1 → p.1 = q.1) →
      ∀ kv ∈ headers,
        (setHeaders headers req).Header (CanonicalMIMEHeaderKey kv.1) = some [kv.2] := by
  induction headers with
  | nil => intro req _ _ kv hkv; simp at hkv
  | cons x headers ih =>
    intro req hmap hcanon kv hkv
    rw [setHeaders_cons]
    have hmap' : (headers.map Prod.fst).Nodup := (List.nodup_cons.mp hmap).2
    have hx : x.1 ∉ headers.map Prod.fst := (List.nodup_cons.mp hmap).1
    have hcanon' : ∀ p ∈ headers, ∀ q ∈ headers,
        CanonicalMIMEHeaderKey p.1 = CanonicalMIMEHeaderKey q.1 → p.1 = q.1 :=
      fun p hp q hq => hcanon p (List.mem_cons_of_mem _ hp) q (List.mem_cons_of_mem _ hq)
    rcases List.mem_cons.mp hkv with heq | hmem
    · subst heq
      rw [setHeaders_untouched]
      · simp [Header.Set]
      · intro p hp hpc
        have := hcanon p (List.mem_cons_of_mem _ hp) kv (List.mem_cons_self _ _) hpc
        exact hx (this ▸ List.mem_map_of_mem Prod.fst hp)
    · exact ih _ hmap' hcanon' kv hmem

theorem setHeaders_perm (headers order : List (String × String)) (req : Request)
    (hmap : (headers.map Prod.fst).Nodup)
    (hcanon : ∀ p ∈ headers, ∀ q ∈ headers,
      CanonicalMIMEHeaderKey p.1 = CanonicalMIMEHeaderKey q.1 → p.1 = q.1)
    (horder : order.Perm headers) :
    setHeaders order req = setHeaders headers req := by
  have hmap' : (order.map Prod.fst).Nodup := (horder.map Prod.fst).nodup_iff.mpr hmap
  have hcanon' : ∀ p ∈ order, ∀ q ∈ order,
      CanonicalMIMEHeaderKey p.1 = CanonicalMIMEHeaderKey q.1 → p.1 = q.1 :=
    fun p hp q hq => hcanon p (horder.mem_iff.mp hp) q (horder.mem_iff.mp hq)
  have hfields := setHeaders_fields headers req
  have hfields' := setHeaders_fields order req
  have hheader : (setHeaders order req).Header = (setHeaders headers req).Header := by
    funext key
    by_cases hkey : ∃ kv ∈ headers, CanonicalMIMEHeaderKey kv.1 = key
    · obtain ⟨kv, hkv, rfl⟩ := hkey
      rw [setHeaders_entry headers req hmap hcanon kv hkv,
        setHeaders_entry order req hmap' hcanon' kv (horder.mem_iff.mpr hkv)]
    · have hno : ∀ kv ∈ headers, CanonicalMIMEHeaderKey kv.1 ≠ key :=
        fun kv hkv heq => hkey ⟨kv, hkv, heq⟩
      rw [setHeaders_untouched key headers req hno,
        setHeaders_untouched key order req (fun kv hkv => hno kv (horder.mem_iff.mp hkv))]
  cases hA : setHeaders order req
  cases hB : setHeaders headers req
  rw [hA] at hfields' hheader
  rw [hB] at hfields hheader
  simp only at hfields hfields' hheader
  obtain ⟨h1, h2, h3⟩ := hfields
  obtain ⟨h1', h2', h3'⟩ := hfields'
  subst h1 h2 h3 h1' h2' h3' hheader
  rfl

theorem run_sent (env : Env) (h : HTTP) (call : Call) (urlStr : String)
    (headers : List (String × String)) (u : URL) (req : Request) (client : Client)
    (hu : env.Parse urlStr = Except.ok u)
    (hreq : env.NewRequest call.method u.String call.rawBody = Except.ok req)
    (hc : h.Client = some client) :
    ∃ out, HTTP.run env h call urlStr headers = some out ∧
      out.sent = [setHeaders headers req] := by
  cases hdo : env.Do client (setHeaders headers req) with
  | error e => exact ⟨_, run_do_error env h call urlStr headers u req client e hu hreq hc hdo, rfl⟩
  | ok resp =>
    obtain ⟨out, hrun, hsent, -, -⟩ := run_do_ok_cases env h call urlStr headers u req client
      resp _ _ hu hreq hc hdo (bodyReader_readAll h resp)
    exact ⟨out, hrun, hsent⟩

/-- C6, as the code has it. `Header.Set` files a value under the canonical MIME form
of its key. For a headers map whose keys have pairwise distinct canonical
forms (a map whose keys are all canonical is one), `Post` and `Get` hand to the
Engine one request, the same in whatever order the entries are applied, on
which every pair of the map appears under the canonical form of its key, the
key itself when it is canonical, with the given value as the single value,
whatever the request held under that name before. -/
theorem headers_set_under_canonical_key (env : Env) (h : HTTP) (call : Call) (urlStr : String)
    (headers order : List (String × String)) (u : URL) (req : Request) (client : Client)
    (hu : env.Parse urlStr = Except.ok u)
    (hreq : env.NewRequest call.method u.String call.rawBody = Except.ok req)
    (hc : h.Client = some client)
    (hmap : (headers.map Prod.fst).Nodup)
    (hcanon : ∀ p ∈ headers, ∀ q ∈ headers,
      CanonicalMIMEHeaderKey p.1 = CanonicalMIMEHeaderKey q.1 → p.1 = q.1)
    (horder : order.Perm headers) :
    ∃ out sent, HTTP.run env h call urlStr order = some out ∧ out.sent = [sent] ∧
      sent = setHeaders headers req ∧
      (∀ kv ∈ headers, sent.Header (CanonicalMIMEHeaderKey kv.1) = some [kv.2]) ∧
      (∀ kv ∈ headers, CanonicalMIMEHeaderKey kv.1 = kv.1 → sent.Header kv.1 = some [kv.2]) := by
  obtain ⟨out, hrun, hsent⟩ := run_sent env h call urlStr order u req client hu hreq hc
  rw [setHeaders_perm headers order req hmap hcanon horder] at hsent
  refine ⟨out, _, hrun, hsent, rfl, setHeaders_entry headers req hmap hcanon, ?_⟩
  intro kv hkv hk
  have := setHeaders_entry headers req hmap hcanon kv hkv
  rwa [hk] at this

/-- C6 as stated fails. The headers map with the single entry `x-test: 1` reaches
the Engine with nothing under `x-test` and the value under `X-Test`. For the
map with the entries `x-test: 1` and `X-Test: 2`, the request carries `2`
when `x-test` is applied first and `1` when `X-Test` is applied first. -/
theorem headers_not_as_given_counterexample :
    (HTTP.Post (stubEnv (Except.ok ⟨200, ⟨[], Error.EOF, false⟩⟩)) httpDefault
        "http://stub/echo" [("x-test", "1")] []).map
        (fun o => o.sent.map (fun r => (r.Header "x-test", r.Header "X-Test"))) =
      some [(none, some ["1"])] ∧
    (HTTP.Post (stubEnv (Except.ok ⟨200, ⟨[], Error.EOF, false⟩⟩)) httpDefault
        "http://stub/echo" [("x-test", "1"), ("X-Test", "2")] []).map
        (fun o => o.sent.map (fun r => r.Header "X-Test")) =
      some [some ["2"]] ∧
    (HTTP.Post (stubEnv (Except.ok ⟨200, ⟨[], Error.EOF, false⟩⟩)) httpDefault
        "http://stub/echo" [("X-Test", "2"), ("x-test", "1")] []).map
        (fun o => o.sent.map (fun r => r.Header "X-Test")) =
      some [some ["1"]] := by
  decide

theorem headers_set_under_canonical_key_witness :
    ([("X-Test", "1"), ("Accept", "text/plain")].map Prod.fst).Nodup ∧
      (∀ p ∈ [("X-Test", "1"), ("Accept", "text/plain")],
        ∀ q ∈ [("X-Test", "1"), ("Accept", "text/plain")],
          CanonicalMIMEHeaderKey p.1 = CanonicalMIMEHeaderKey q.1 → p.1 = q.1) ∧
      [("Accept", "text/plain"), ("X-Test", "1")].Perm
        [("X-Test", "1"), ("Accept", "text/plain")] ∧
      ∃ out sent,
        HTTP.run (stubEnv (Except.ok ⟨200, ⟨[], Error.EOF, false⟩⟩)) httpDefault
          (Call.Post [104, 105]) "http://stub/echo"
          [("Accept", "text/plain"), ("X-Test", "1")] = some out ∧
        out.sent = [sent] ∧
        sent = setHeaders [("X-Test", "1"), ("Accept", "text/plain")]
          { Method := "POST", URL := "http://stub/echo", Header := fun _ => none,
            Body := some [104, 105] } ∧
        (∀ kv ∈ [("X-Test", "1"), ("Accept", "text/plain")],
          sent.Header (CanonicalMIMEHeaderKey kv.1) = some [kv.2]) ∧
        (∀ kv ∈ [("X-Test", "1"), ("Accept", "text/plain")],
          CanonicalMIMEHeaderKey kv.1 = kv.1 → sent.Header kv.1 = some [kv.2]) :=
  ⟨by decide, by decide, List.Perm.swap _ _ _,
    headers_set_under_canonical_key (stubEnv (Except.ok ⟨200, ⟨[], Error.EOF, false⟩⟩))
      httpDefault (Call.Post [104, 105]) "http://stub/echo"
      [("X-Test", "1"), ("Accept", "text/plain")] [("Accept", "text/plain"), ("X-Test", "1")]
      { text := "http://stub/echo" }
      { Method := "POST", URL := "http://stub/echo", Header := fun _ => none,
        Body := some [104, 105] }
      (initHTTP 10 3) rfl rfl rfl (by decide) (by decide) (List.Perm.swap _ _ _)⟩

/-! ## Client configuration -/

theorem wrapInt64_of_fits (x : Int) (hlo : -9223372036854775808 ≤ x)
    (hhi : x ≤ 9223372036854775807) : wrapInt64 x = x := by
  unfold wrapInt64
  omega

theorem initHTTP_fields (timeout retryMax : Int) :
    (initHTTP timeout retryMax).RetryMax = retryMax ∧
      (initHTTP timeout retryMax).Logger = none ∧
      (initHTTP timeout retryMax).HTTPClient.Timeout = wrapInt64 (timeout * Second) ∧
      (-9223372036 ≤ timeout → timeout ≤ 9223372036 →
        (initHTTP timeout retryMax).HTTPClient.Timeout = timeout * Second) := by
  refine ⟨rfl, rfl, rfl, ?_⟩
  intro hlo hhi
  show wrapInt64 (timeout * Second) = timeout * Second
  apply wrapInt64_of_fits <;> simp only [Second] <;> omega

/-- C7, as the code has it. For every configuration `c`, `New(c)` returns a client
that holds `c`'s response limit and owns an Engine with maximum retry count
`c.RetryMax` and no logger. The Engine's timeout is the `time.Duration`
`c.Timeout * time.Second` computed in 64 bits, which is `c.Timeout` seconds
exactly when `c.Timeout` lies between -9223372036 and 9223372036. No
configuration is rejected. -/
theorem New_builds_engine (c : HTTP) :
    (New c).ResponseLimit = c.ResponseLimit ∧
      ∃ engine, (New c).Client = some engine ∧
        engine.RetryMax = c.RetryMax ∧
        engine.Logger = none ∧
        engine.HTTPClient.Timeout = wrapInt64 (c.Timeout * Second) ∧
        (-9223372036 ≤ c.Timeout → c.Timeout ≤ 9223372036 →
          engine.HTTPClient.Timeout = c.Timeout * Second) :=
  ⟨rfl, initHTTP c.Timeout c.RetryMax, rfl, initHTTP_fields c.Timeout c.RetryMax⟩

theorem New_builds_engine_witness :
    (New { Timeout := 5, RetryMax := 2, ResponseLimit := 7 }).ResponseLimit = 7 ∧
      ∃ engine, (New { Timeout := 5, RetryMax := 2, ResponseLimit := 7 }).Client = some engine ∧
        engine.RetryMax = 2 ∧
        engine.Logger = none ∧
        engine.HTTPClient.Timeout = wrapInt64 (5 * Second) ∧
        (-9223372036 ≤ (5 : Int) → (5 : Int) ≤ 9223372036 →
          engine.HTTPClient.Timeout = 5 * Second) :=
  New_builds_engine { Timeout := 5, RetryMax := 2, ResponseLimit := 7 }

/-- C7 as stated fails. For the configuration with `Timeout = 9223372037`,
`RetryMax = 2` and `ResponseLimit = 7`, the Engine that `New` builds has the
timeout -9223372036709551616 ns, not 9223372037 s; the returned struct has
`Timeout = 0` and `RetryMax = 0`. -/
theorem New_timeout_overflow_counterexample :
    (New { Timeout := 9223372037, RetryMax := 2, ResponseLimit := 7 }).Client.map
        (fun engine => engine.HTTPClient.Timeout) = some (-9223372036709551616) ∧
      (-9223372036709551616 : Int) ≠ 9223372037 * Second ∧
      (New { Timeout := 9223372037, RetryMax := 2, ResponseLimit := 7 }).Timeout = 0 ∧
      (New { Timeout := 9223372037, RetryMax := 2, ResponseLimit := 7 }).RetryMax = 0 := by
  decide

/-- C8 on the code. The struct that `httpDefault` builds, which package
initialisation stores in `DefaultClient`, has `ResponseLimit = 0` and an
Engine with a timeout of 10 s, 3 retries and no logger, but its own `Timeout`
and `RetryMax` are 0, not 10 and 3: a client built from it by `New` has an
Engine with timeout 0 and no retry. -/
theorem httpDefault_fields_unset :
    httpDefault.Timeout = 0 ∧ httpDefault.RetryMax = 0 ∧ httpDefault.ResponseLimit = 0 ∧
      httpDefault.Client.map
          (fun engine => (engine.HTTPClient.Timeout, engine.RetryMax, engine.Logger)) =
        some (10 * Second, 3, none) ∧
      (∀ m : Heap, initPackage m DefaultClient = httpDefault) ∧
      (New httpDefault).Client.map (fun engine => (engine.HTTPClient.Timeout, engine.RetryMax)) =
        some (0, 0) := by
  refine ⟨rfl, rfl, rfl, by decide, ?_, by decide⟩
  intro m
  simp [initPackage, Heap.store]

theorem GlobalHttp_default (h : Ptr) (m : Heap) :
    GlobalHttp h m DefaultClient =
      { Client := some (initHTTP (m h).Timeout (m h).RetryMax)
        ResponseLimit := (m h).ResponseLimit
        Timeout := (m h).Timeout
        RetryMax := (m h).RetryMax } := by
  by_cases hh : h = DefaultClient
  · subst hh
    simp [GlobalHttp, Heap.store]
  · simp [GlobalHttp, Heap.store, hh]

theorem GlobalHttp_frame (h : Ptr) (m : Heap) (p : Ptr) (hp : p ≠ DefaultClient) :
    GlobalHttp h m p = m p := by
  simp [GlobalHttp, Heap.store, hp]

theorem retryLoop_total (c : Client) (net : Transport) (fuel : Nat) :
    ∀ i : Nat, (c.RetryMax - (i : Int)).toNat + 1 ≤ fuel →
      ∃ r, retryLoop c net fuel i = some r ∧ i + 1 ≤ r.attempt ∧
        (r.attempt : Int) ≤ max c.RetryMax (i : Int) + 1 := by
  induction fuel with
  | zero => intro i h; omega
  | succ fuel ih =>
    intro i h
    unfold retryLoop
    by_cases hstop : (!(net.CheckRetry (net.roundTrip i)).1) = true
    · simp only [hstop, if_true]
      exact ⟨_, rfl, le_refl _, by simp only [Nat.cast_add, Nat.cast_one]; omega⟩
    · simp only [hstop]
      by_cases hremain : c.RetryMax - (i : Int) ≤ 0
      · simp only [hremain, if_true]
        exact ⟨_, rfl, le_refl _, by simp only [Nat.cast_add, Nat.cast_one]; omega⟩
      · simp only [hremain, if_false]
        obtain ⟨r, hr, h1, h2⟩ := ih (i + 1) (by simp only [Nat.cast_add, Nat.cast_one]; omega)
        refine ⟨r, hr, by omega, ?_⟩
        simp only [Nat.cast_add, Nat.cast_one] at h2
        omega

theorem retryLoop_no_retry (c : Client) (net : Transport) (fuel : Nat)
    (hmax : c.RetryMax ≤ 0) :
    retryLoop c net (fuel + 1) 0 =
      some { attempt := 1, outcome := net.roundTrip 0,
             shouldRetry := (net.CheckRetry (net.roundTrip 0)).1,
             checkErr := (net.CheckRetry (net.roundTrip 0)).2 } := by
  unfold retryLoop
  by_cases hstop : (!(net.CheckRetry (net.roundTrip 0)).1) = true
  · simp [hstop]
  · simp [hstop, hmax]

theorem Client_Do_total (c : Client) (net : Transport) :
    ∃ a, Client.Do c net = some a ∧ 1 ≤ a.attempt ∧
      (a.attempt : Int) ≤ max c.RetryMax 0 + 1 := by
  obtain ⟨r, hr, h1, h2⟩ := retryLoop_total c net (c.RetryMax.toNat + 1) 0 (by simp)
  unfold Client.Do
  rw [hr]
  simp only [Nat.cast_zero] at h2
  dsimp only
  split <;> exact ⟨_, rfl, by simpa using h1, h2⟩

theorem Client_Do_no_retry (c : Client) (net : Transport) (hmax : c.RetryMax ≤ 0) :
    ∃ a, Client.Do c net = some a ∧ a.attempt = 1 ∧
      (∀ e, net.roundTrip 0 = Except.error e →
        a.response = Except.error (Error.other "giving up")) := by
  unfold Client.Do
  rw [retryLoop_no_retry c net _ hmax]
  simp only
  split
  · rename_i resp hout _ _
    exact ⟨_, rfl, rfl, fun e he => by rw [he] at hout; cases hout⟩
  · exact ⟨_, rfl, rfl, fun _ _ => rfl⟩

theorem run_eq (env : Env) (m : Heap) (call : Call) (urlStr : String)
    (headers : List (String × String)) :
    run env m call urlStr headers = HTTP.run env (m DefaultClient) call urlStr headers := by
  cases call <;> rfl

/-- C9, as the code has it. After `GlobalHttp(h)` the `Timeout`, `RetryMax` and
`ResponseLimit` of `DefaultClient` are those of `h`, and its Engine is a new one
with maximum retry count `h.RetryMax`, no logger, and the timeout
`h.Timeout * time.Second` computed in 64 bits, which is `h.Timeout` seconds
exactly when `h.Timeout` lies between -9223372036 and 9223372036. That Engine
serves every request in at least one attempt and at most `h.RetryMax`
retries, and for `h.RetryMax = 0` it performs no retries: one attempt on
every network. Every struct other than the one `DefaultClient` points to is
left as it was, `h` included unless `h` is `DefaultClient` itself. The package
functions `Post` and `Get` then run on the new configuration: after a
reconfiguration with `RetryMax = 0`, a call against a network on which the
first attempt fails returns a `Result` with `Err` set after exactly one
attempt. -/
theorem GlobalHttp_reconfigures (h : Ptr) (m : Heap) :
    (GlobalHttp h m DefaultClient).Timeout = (m h).Timeout ∧
      (GlobalHttp h m DefaultClient).RetryMax = (m h).RetryMax ∧
      (GlobalHttp h m DefaultClient).ResponseLimit = (m h).ResponseLimit ∧
      (∃ engine, (GlobalHttp h m DefaultClient).Client = some engine ∧
        engine.RetryMax = (m h).RetryMax ∧
        engine.Logger = none ∧
        engine.HTTPClient.Timeout = wrapInt64 ((m h).Timeout * Second) ∧
        (-9223372036 ≤ (m h).Timeout → (m h).Timeout ≤ 9223372036 →
          engine.HTTPClient.Timeout = (m h).Timeout * Second) ∧
        (∀ net : Transport, ∃ a, Client.Do engine net = some a ∧ 1 ≤ a.attempt ∧
          (a.attempt : Int) ≤ max (m h).RetryMax 0 + 1) ∧
        ((m h).RetryMax = 0 →
          ∀ net : Transport, ∃ a, Client.Do engine net = some a ∧ a.attempt = 1) ∧
        ((m h).RetryMax = 0 →
          ∀ (env : Env) (net : Request → Transport) (call : Call) (urlStr : String)
            (headers : List (String × String)) (u : URL) (req : Request) (e : Error),
            env.Parse urlStr = Except.ok u →
            env.NewRequest call.method u.String call.rawBody = Except.ok req →
            (net (setHeaders headers req)).roundTrip 0 = Except.error e →
            ∃ out a, run (env.onNetwork net) (GlobalHttp h m) call urlStr headers = some out ∧
              out.sent = [setHeaders headers req] ∧
              out.result.Err ≠ none ∧
              out.result.StatusCode = 0 ∧
              Client.Do engine (net (setHeaders headers req)) = some a ∧
              a.attempt = 1 ∧
              a.response = Except.error (Error.other "giving up"))) ∧
      (∀ p : Ptr, p ≠ DefaultClient → GlobalHttp h m p = m p) ∧
      (∀ (env : Env) (urlStr : String) (headers : List (String × String)) (requestBody : Bytes),
        Post env (GlobalHttp h m) urlStr headers requestBody =
          HTTP.Post env
            { Client := some (initHTTP (m h).Timeout (m h).RetryMax)
              ResponseLimit := (m h).ResponseLimit
              Timeout := (m h).Timeout
              RetryMax := (m h).RetryMax } urlStr headers requestBody) ∧
      (∀ (env : Env) (t : String) (headers : List (String × String)),
        Get env (GlobalHttp h m) t headers =
          HTTP.Get env
            { Client := some (initHTTP (m h).Timeout (m h).RetryMax)
              ResponseLimit := (m h).ResponseLimit
              Timeout := (m h).Timeout
              RetryMax := (m h).RetryMax } t headers) := by
  have hd := GlobalHttp_default h m
  have hfields := initHTTP_fields (m h).Timeout (m h).RetryMax
  refine ⟨by rw [hd], by rw [hd], by rw [hd], ?_, GlobalHttp_frame h m, ?_, ?_⟩
  · refine ⟨initHTTP (m h).Timeout (m h).RetryMax, by rw [hd], hfields.1, hfields.2.1,
      hfields.2.2.1, hfields.2.2.2, ?_, ?_, ?_⟩
    · intro net
      have := Client_Do_total (initHTTP (m h).Timeout (m h).RetryMax) net
      rwa [hfields.1] at this
    · intro hzero net
      obtain ⟨a, ha, hone, -⟩ := Client_Do_no_retry (initHTTP (m h).Timeout (m h).RetryMax) net
        (by rw [hfields.1, hzero])
      exact ⟨a, ha, hone⟩
    · intro hzero env net call urlStr headers u req e hu hreq hfail
      obtain ⟨a, ha, hone, hresp⟩ := Client_Do_no_retry (initHTTP (m h).Timeout (m h).RetryMax)
        (net (setHeaders headers req)) (by rw [hfields.1, hzero])
      have hdo : (env.onNetwork net).Do (initHTTP (m h).Timeout (m h).RetryMax)
          (setHeaders headers req) = Except.error (Error.other "giving up") := by
        simp only [Env.onNetwork, ha]
        exact hresp e hfail
      have hrun := run_do_error (env.onNetwork net) (GlobalHttp h m DefaultClient) call urlStr
        headers u req (initHTTP (m h).Timeout (m h).RetryMax) (Error.other "giving up")
        hu hreq (by rw [hd]) hdo
      refine ⟨{ result := { URL := u.String, Err := some (Error.other "giving up") },
                sent := [setHeaders headers req] }, a, ?_, rfl, ?_, rfl, ha, hone,
        hresp e hfail⟩
      · rw [run_eq]
        exact hrun
      · simp
  · intro env urlStr headers requestBody
    simp only [Post, hd]
  · intro env t headers
    simp only [Get, hd]

theorem GlobalHttp_reconfigures_witness :
    (-9223372036 ≤ (5 : Int) ∧ (5 : Int) ≤ 9223372036) ∧
      (GlobalHttp 1 (initPackage (fun _ => { Timeout := 5, ResponseLimit := 100 }))
          DefaultClient).Client.map
          (fun engine => (engine.HTTPClient.Timeout, engine.RetryMax, engine.Logger)) =
        some (5 * Second, 0, none) ∧
      (GlobalHttp 1 (initPackage (fun _ => { Timeout := 5, ResponseLimit := 100 }))
          DefaultClient).ResponseLimit = 100 ∧
      ((initPackage (fun _ => { Timeout := 5, ResponseLimit := 100 }) 1).RetryMax = 0 ∧
        (stubEnv (Except.error Error.EOF)).Parse "http://stub/down" =
          Except.ok { text := "http://stub/down" } ∧
        downNet.roundTrip 0 = Except.error (Error.other "connection refused")) ∧
      (∃ out, run ((stubEnv (Except.error Error.EOF)).onNetwork (fun _ => downNet))
            (GlobalHttp 1 (initPackage (fun _ => { Timeout := 5, ResponseLimit := 100 })))
            Call.Get "http://stub/down" [] = some out ∧
          out.result.Err ≠ none ∧ out.result.StatusCode = 0) ∧
      ((GlobalHttp 1 (initPackage (fun _ => { Timeout := 5, ResponseLimit := 100 }))
          DefaultClient).Client.bind (fun engine => Client.Do engine downNet)).map
          (fun a => a.attempt) = some 1 ∧
      ((initPackage (fun _ => { Timeout := 5, ResponseLimit := 100 })
          DefaultClient).Client.bind (fun engine => Client.Do engine downNet)).map
          (fun a => a.attempt) = some 4 := by
  obtain ⟨-, -, hlimit, ⟨engine, hengine, hretry, hlogger, -, hexact, -, hone, hcall⟩, -, -, -⟩ :=
    GlobalHttp_reconfigures 1 (initPackage (fun _ => { Timeout := 5, ResponseLimit := 100 }))
  refine ⟨⟨by decide, by decide⟩, ?_, hlimit, ⟨rfl, rfl, rfl⟩, ?_, ?_, by decide⟩
  · rw [hengine, Option.map_some', hretry, hlogger, hexact (by decide) (by decide)]
    rfl
  · obtain ⟨out, a, hrun, -, herr, hstatus, -, -, -⟩ :=
      hcall rfl (stubEnv (Except.error Error.EOF)) (fun _ => downNet) Call.Get
        "http://stub/down" [] { text := "http://stub/down" }
        { Method := "GET", URL := "http://stub/down", Header := fun _ => none, Body := none }
        (Error.other "connection refused") rfl rfl rfl
    exact ⟨out, hrun, herr, hstatus⟩
  · obtain ⟨a, ha, hattempt⟩ := hone rfl downNet
    rw [hengine]
    show Option.map (fun a => a.attempt) (Client.Do engine downNet) = some 1
    rw [ha, Option.map_some', hattempt]

/-- C9 as stated fails. After `GlobalHttp` on a struct with `Timeout = 9223372037` the
Engine of `DefaultClient` has the timeout -9223372036709551616 ns, not
9223372037 s. And when the caller sets `DefaultClient.Timeout = 5` and
`DefaultClient.RetryMax = 1` and passes `DefaultClient` itself, the struct
passed is modified: its Engine, built for 10 s and 3 retries, is replaced by
one for 5 s and 1 retry. -/
theorem GlobalHttp_overflow_alias_counterexample :
    (GlobalHttp 1 (initPackage (fun _ => { Timeout := 9223372037 }))
        DefaultClient).Client.map (fun engine => engine.HTTPClient.Timeout) =
      some (-9223372036709551616) ∧
    (-9223372036709551616 : Int) ≠ 9223372037 * Second ∧
    (Heap.store (initPackage (fun _ => { })) DefaultClient
        (fun d => { d with Timeout := 5, RetryMax := 1 }) DefaultClient).Client =
      some (initHTTP 10 3) ∧
    (GlobalHttp DefaultClient
        (Heap.store (initPackage (fun _ => { })) DefaultClient
          (fun d => { d with Timeout := 5, RetryMax := 1 })) DefaultClient).Client =
      some (initHTTP 5 1) ∧
    initHTTP 5 1 ≠ initHTTP 10 3 := by
  decide

end rehttp

